import Mathlib

/-!
Shallow embedding of `pufferlib/vectorization.py`.

Python exceptions are modelled with `Except Err`; Python's ordered dicts are
modelled as association lists `List (Nat × v)` in insertion order; numpy's
`np.stack` / `np.split` are modelled at the level of lists of rows; the
cross-process message round trips of the `Multiprocessing` backends are
collapsed to synchronous function calls (the orchestrator's `recv()` blocks
until the worker's response, so the observable data flow is sequential).
-/

set_option maxHeartbeats 1000000

/-- The Python exceptions raised by the code under study. -/
inductive Err : Type
  | assertionError (msg : String)
  | valueError (msg : String)
  | attributeError (msg : String)
  | typeError (msg : String)
  | notImplementedError
  deriving DecidableEq, Repr

/-- The orchestrator FSM states `RESET = 0`, `SEND = 1`, `RECV = 2`. -/
inductive Fsm : Type
  | RESET
  | SEND
  | RECV
  deriving DecidableEq, Repr

/-- One environment's `(obs, rewards, dones, infos)` tuple.  Agent keys are
`Nat`; observation values, reward values and info payloads are parameters. -/
structure EnvResult (ο : Type) : Type where
  obs : List (Nat × ο)
  rewards : List (Nat × Int)
  dones : List (Nat × Bool)
  infos : List (Nat × Int)
  deriving DecidableEq, Repr

/-- An environment implementation: opaque state `σ` exposing
`reset(seed) -> obs_map`, `step(action_map) -> (obs, rewards, dones, infos)`,
a `done` flag and `seed(value)` (the §3 capability set of the spec). -/
structure Env (σ ο α : Type) : Type where
  reset : σ → Option Int → σ × List (Nat × ο)
  stepf : σ → List (Nat × α) → σ × EnvResult ο
  done : σ → Bool
  seedf : σ → Int → σ

/-- `MultiEnv.reset_all` loop: each env is reset, the seed (when present) is
incremented by 1 between envs, and the handle `(obs, {}, {}, {})` is recorded. -/
def resetAllLoop (spec : Env σ ο α) : List σ → Option Int → List σ × List (EnvResult ο)
  | [], _ => ([], [])
  | st :: rest, seed =>
      let r := spec.reset st seed
      let seed' := match seed with
        | none => none
        | some s => some (s + 1)
      let t := resetAllLoop spec rest seed'
      (r.1 :: t.1, ⟨r.2, [], [], []⟩ :: t.2)

/-- `MultiEnv.step` body for one slot: auto-reset when the env's `done` flag is
set (the submitted action is dropped and a synthetic zero-reward all-false-done
empty-info result substituted), otherwise `env.step(actions)`. -/
def stepSlot (spec : Env σ ο α) (st : σ) (acts : List (Nat × α)) : σ × EnvResult ο :=
  if spec.done st then
    let r := spec.reset st none
    (r.1, ⟨r.2, r.2.map (fun p => (p.1, (0 : Int))), r.2.map (fun p => (p.1, false)), []⟩)
  else
    spec.stepf st acts

/-- The `zip`-driven loop of `MultiEnv.step`. -/
def stepLoop (spec : Env σ ο α) : List σ → List (List (Nat × α)) → List σ × List (EnvResult ο)
  | st :: sts, a :: as_ =>
      let r := stepSlot spec st a
      let t := stepLoop spec sts as_
      (r.1 :: t.1, r.2 :: t.2)
  | sts, _ => (sts, [])

/-- `MultiEnv.step(actions_lists)`: asserts
`len(self.envs) == len(actions_lists)` then steps every slot. -/
def multiEnvStep (spec : Env σ ο α) (envs : List σ) (acts : List (List (Nat × α))) :
    Except Err (List σ × List (EnvResult ο)) :=
  if envs.length = acts.length then .ok (stepLoop spec envs acts)
  else .error (.assertionError "len mismatch")

/-- The `Serial` backend: a `MultiEnv` plus the single buffered result slot. -/
structure SerialSt (σ ο : Type) : Type where
  envs : List σ
  async_handles : Option (List (EnvResult ο))

/-- The backend interface the orchestrator programs against (`backend_cls` is
duck-typed in Python; the orchestrator only calls these four methods). -/
structure BackendOps (β ο α : Type) : Type where
  async_reset_all : β → Option Int → Except Err β
  send : β → List (List (Nat × α)) → Except Err β
  recv : β → Except Err (β × List (EnvResult ο))
  close : β → Except Err β

/-- The `Serial` backend's methods.  `close` resolves through the MRO to
`Backend.close`, which raises `NotImplementedError` (neither `Serial` nor
`MultiEnv` defines `close`). -/
def serialOps (spec : Env σ ο α) : BackendOps (SerialSt σ ο) ο α where
  async_reset_all st seed :=
    match st.async_handles with
    | some _ => .error (.assertionError "reset called after send")
    | none =>
        let r := resetAllLoop spec st.envs seed
        .ok ⟨r.1, some r.2⟩
  send st acts :=
    match st.async_handles with
    | some _ => .error (.assertionError "send called before recv")
    | none =>
        match multiEnvStep spec st.envs acts with
        | .error e => .error e
        | .ok r => .ok ⟨r.1, some r.2⟩
  recv st :=
    match st.async_handles with
    | none => .error (.assertionError "recv called before reset or send")
    | some hs => .ok (⟨st.envs, none⟩, hs)
  close _ := .error .notImplementedError

/-- Python `dict(...)` built from a pair list: a later duplicate key overwrites
the earlier value in place, otherwise pairs keep insertion order. -/
def dictInsert (m : List (Nat × α)) (k : Nat) (v : α) : List (Nat × α) :=
  if m.any (fun p => p.1 = k) then m.map (fun p => if p.1 = k then (k, v) else p)
  else m ++ [(k, v)]

/-- `dict(pairs)` as an insertion-ordered association list. -/
def pyDict (l : List (Nat × α)) : List (Nat × α) :=
  l.foldl (fun m p => dictInsert m p.1 p.2) []

/-- `np.stack(rows)`: fails on an empty list, otherwise the stacked batch whose
row `i` is element `i`. -/
def npStack (l : List ο) : Except Err (List ο) :=
  if l.isEmpty then .error (.valueError "need at least one array to stack")
  else .ok l

/-- `np.split(arr, n)`: `n` equal contiguous chunks; raises unless `n` is
positive and divides the length. -/
def npSplit (l : List α) (n : Nat) : Except Err (List (List α)) :=
  if n = 0 then .error (.valueError "number sections must be larger than 0")
  else if l.length % n = 0 then .ok (splitSections l (l.length / n) n)
  else .error (.valueError "array split does not result in an equal division")
where
  /-- the first `n` size-`k` contiguous chunks of `l` -/
  splitSections (l : List α) (k : Nat) : Nat → List (List α)
    | 0 => []
    | n + 1 => l.take k :: splitSections (l.drop k) k n

/-- The orchestrator's state: construction parameters, FSM state, backends, and
the agent-key ledger recorded by the most recent `recv()`. -/
structure VecEnvSt (β : Type) : Type where
  num_workers : Nat
  envs_per_worker : Nat
  max_agents : Nat
  state : Fsm
  backends : List β
  agent_keys : List (List (List Nat))

/-- A Python value passed as `envs_per_worker`. -/
inductive PyVal : Type
  | pyInt (n : Int)
  | pyBool (b : Bool)
  | pyFloat (q : Rat)
  | pyNone
  | pyStr (s : String)
  deriving DecidableEq, Repr

/-- Python `v > 0`: numeric kinds compare; `None`/`str` raise `TypeError`. -/
def pyGtZero : PyVal → Except Err Bool
  | .pyInt n => .ok (0 < n)
  | .pyBool b => .ok b
  | .pyFloat q => .ok (0 < q)
  | .pyNone => .error (.typeError "not supported between instances of NoneType and int")
  | .pyStr _ => .error (.typeError "not supported between instances of str and int")

/-- Python `type(v) == int` (exactly `int`: `bool` does not qualify). -/
def pyIsIntType : PyVal → Bool
  | .pyInt _ => true
  | _ => false

/-- `VecEnv.__init__`: asserts `envs_per_worker > 0` and
`type(envs_per_worker) == int` before building one backend per worker.
`mkBackend` stands for `backend_cls(self.binding.env_creator, envs_per_worker)`. -/
def vecEnvInit (mkBackend : Nat → β) (num_workers : Nat) (max_agents : Nat)
    (envs_per_worker : PyVal) : Except Err (VecEnvSt β) :=
  match pyGtZero envs_per_worker with
  | .error e => .error e
  | .ok gt0 =>
      if ¬ gt0 then .error (.assertionError "Each worker must have at least 1 env")
      else if ¬ pyIsIntType envs_per_worker then .error (.assertionError "type")
      else
        match envs_per_worker with
        | .pyInt n =>
            .ok { num_workers := num_workers
                  envs_per_worker := n.toNat
                  max_agents := max_agents
                  state := .RESET
                  backends := (List.range num_workers).map (fun _ => mkBackend n.toNat)
                  agent_keys := [] }
        | _ => .error (.assertionError "type")

/-- The `async_reset` fan-out loop: each backend gets the current seed, and the
seed (when present) advances by `envs_per_worker * max_agents` per worker. -/
def asyncResetLoop (ops : BackendOps β ο α) (inc : Nat) :
    List β → Option Int → Except Err (List β)
  | [], _ => .ok []
  | b :: bs, seed =>
      match ops.async_reset_all b seed with
      | .error e => .error e
      | .ok b' =>
          let seed' := match seed with
            | none => none
            | some s => some (s + (inc : Int))
          match asyncResetLoop ops inc bs seed' with
          | .error e => .error e
          | .ok rest => .ok (b' :: rest)

/-- `VecEnv.async_reset(seed?)`: requires state `RESET`, moves to `RECV`, fans
the reset out with per-worker seed offsets. -/
def vecAsyncReset (ops : BackendOps β ο α) (v : VecEnvSt β) (seed : Option Int) :
    Except Err (VecEnvSt β) :=
  if v.state = Fsm.RESET then
    match asyncResetLoop ops (v.envs_per_worker * v.max_agents) v.backends seed with
    | .error e => .error e
    | .ok bs' => .ok { v with state := .RECV, backends := bs' }
  else .error (.assertionError "Call reset only once on initialization")

/-- What `VecEnv.recv` accumulates across the backend loop. -/
structure RecvOut (β ο : Type) : Type where
  backends : List β
  agent_keys : List (List (List Nat))
  obs : List ο
  rewards : List Int
  dones : List Bool
  infos : List (List (Nat × Int))

/-- One backend's contribution inside `VecEnv.recv`: agent-key lists, flattened
observation/reward/done values, and the per-env info dicts. -/
def recvBackend (envs : List (EnvResult ο)) :
    List (List Nat) × List ο × List Int × List Bool × List (List (Nat × Int)) :=
  (envs.map (fun r => r.obs.map Prod.fst),
   envs.flatMap (fun r => r.obs.map Prod.snd),
   envs.flatMap (fun r => r.rewards.map Prod.snd),
   envs.flatMap (fun r => r.dones.map Prod.snd),
   envs.map (fun r => r.infos))

/-- The backend loop of `VecEnv.recv`, in ascending worker order. -/
def recvLoop (ops : BackendOps β ο α) : List β → Except Err (RecvOut β ο)
  | [] => .ok ⟨[], [], [], [], [], []⟩
  | b :: bs =>
      match ops.recv b with
      | .error e => .error e
      | .ok (b', envs) =>
          match recvLoop ops bs with
          | .error e => .error e
          | .ok t =>
              let c := recvBackend envs
              .ok ⟨b' :: t.backends, c.1 :: t.agent_keys, c.2.1 ++ t.obs,
                   c.2.2.1 ++ t.rewards, c.2.2.2.1 ++ t.dones, c.2.2.2.2 ++ t.infos⟩

/-- `VecEnv.recv()`: requires state `RECV`, moves to `SEND`, records the
agent-key ledger, returns `(np.stack(obs), rewards, dones, infos)`. -/
def vecRecv (ops : BackendOps β ο α) (v : VecEnvSt β) :
    Except Err (VecEnvSt β × List ο × List Int × List Bool × List (List (Nat × Int))) :=
  if v.state = Fsm.RECV then
    match recvLoop ops v.backends with
    | .error e => .error e
    | .ok r =>
        match npStack r.obs with
        | .error e => .error e
        | .ok stacked =>
            let v' := { v with state := Fsm.SEND, backends := r.backends, agent_keys := r.agent_keys }
            .ok (v', stacked, r.rewards, r.dones, r.infos)
  else .error (.assertionError "Call reset before stepping")

/-- The `zip(self.backends, self.agent_keys, actions)` loop of `VecEnv.send`:
each worker's chunk is split into `envs_per_worker` sub-chunks, each zipped into
a dict with that env's recorded agent keys.  Python's `zip` truncates at the
shortest sequence, leaving any surplus backends untouched. -/
def sendLoop (ops : BackendOps β ο α) (epw : Nat) :
    List β → List (List (List Nat)) → List (List α) → Except Err (List β)
  | b :: bs, keys :: ks, chunk :: cs =>
      match npSplit chunk epw with
      | .error e => .error e
      | .ok subs =>
          let atns := (keys.zip subs).map (fun p => pyDict (p.1.zip p.2))
          match ops.send b atns with
          | .error e => .error e
          | .ok b' =>
              match sendLoop ops epw bs ks cs with
              | .error e => .error e
              | .ok rest => .ok (b' :: rest)
  | bs, _, _ => .ok bs

/-- `VecEnv.send(actions)`: requires state `SEND`, moves to `RECV`, splits the
flat batch into `num_workers` chunks and dispatches per-env action dicts. -/
def vecSend (ops : BackendOps β ο α) (v : VecEnvSt β) (acts : List α) :
    Except Err (VecEnvSt β) :=
  if v.state = Fsm.SEND then
    match npSplit acts v.num_workers with
    | .error e => .error e
    | .ok chunks =>
        match sendLoop ops v.envs_per_worker v.backends v.agent_keys chunks with
        | .error e => .error e
        | .ok bs' => .ok { v with state := .RECV, backends := bs' }
  else .error (.assertionError "Call reset + recv before send")

/-- `VecEnv.reset(seed?)`: `self.async_reset()` (the `seed` parameter is not
forwarded) then `self.recv()[0]`. -/
def vecReset (ops : BackendOps β ο α) (v : VecEnvSt β) (_seed : Option Int) :
    Except Err (VecEnvSt β × List ο) :=
  match vecAsyncReset ops v none with
  | .error e => .error e
  | .ok v1 =>
      match vecRecv ops v1 with
      | .error e => .error e
      | .ok r => .ok (r.1, r.2.1)

/-- `VecEnv.step(actions)`: `self.send(actions)` then `self.recv()`. -/
def vecStep (ops : BackendOps β ο α) (v : VecEnvSt β) (acts : List α) :
    Except Err (VecEnvSt β × List ο × List Int × List Bool × List (List (Nat × Int))) :=
  match vecSend ops v acts with
  | .error e => .error e
  | .ok v1 => vecRecv ops v1

/-- `VecEnv.close()`: calls `close()` on every backend in order; the first
exception propagates. -/
def vecClose (ops : BackendOps β ο α) : List β → Except Err (List β)
  | [] => .ok []
  | b :: bs =>
      match ops.close b with
      | .error e => .error e
      | .ok b' =>
          match vecClose ops bs with
          | .error e => .error e
          | .ok rest => .ok (b' :: rest)

/-- A worker RPC request `(method_name, args, kwargs)`; the method names that
occur in the code become constructors. -/
inductive Request (α : Type) : Type
  | step (acts : List (List (Nat × α)))
  | reset_all (seed : Option Int)
  | seedReq (s : Int)
  | put_all
  | get_all
  | close
  | terminate
  deriving DecidableEq

/-- A worker response published on the egress queue. -/
inductive Response (ο : Type) : Type
  | results (rs : List (EnvResult ο))
  | header (n : Nat) (dones : List (List (Nat × Bool)))
  | noneVal
  deriving DecidableEq

/-- `MultiEnv.seed(seed)`: assigns `seed, seed+1, ...` in index order. -/
def multiEnvSeed (spec : Env σ ο α) : List σ → Int → List σ
  | [], _ => []
  | st :: rest, s => spec.seedf st s :: multiEnvSeed spec rest (s + 1)

/-- The generic `getattr(self.envs, request)` dispatch of the queue worker:
`MultiEnv` defines `seed`, `profile_all`, `put_all`, `get_all`, `reset_all`
and `step` but no `close` (and no `terminate`), so those names raise
`AttributeError`. -/
def multiEnvDispatch (spec : Env σ ο α) (envs : List σ) :
    Request α → Except Err (List σ × Response ο)
  | .step acts =>
      match multiEnvStep spec envs acts with
      | .error e => .error e
      | .ok r => .ok (r.1, .results r.2)
  | .reset_all seed =>
      let r := resetAllLoop spec envs seed
      .ok (r.1, .results r.2)
  | .seedReq s => .ok (multiEnvSeed spec envs s, .noneVal)
  | .put_all => .ok (envs, .noneVal)
  | .get_all => .ok (envs, .noneVal)
  | .close => .error (.attributeError "MultiEnv object has no attribute close")
  | .terminate => .error (.attributeError "MultiEnv object has no attribute terminate")

/-- `Multiprocessing.close()`: puts the generic `("close", [], {})` message on
the request queue and returns. -/
def mpClose (request_queue : List (Request α)) : List (Request α) :=
  request_queue ++ [Request.close]

/-- The shared-memory worker's state: its `MultiEnv`.  The worker's process
image holds **no** shared buffer: `SharedMemoryMultiprocessing.__init__` calls
`super().__init__`, which starts the worker process, *before* `obs_shm` /
`obs_np` are assigned on `self`, so the copy of `self` the worker runs with
never has an `obs_np` attribute.  (`ο`, the observation value type the buffer
would have held, remains a parameter only so the worker's responses are typed
like the queues worker's.) -/
structure SmWorkerSt (σ ο : Type) : Type where
  envs : List σ

/-- The `SharedMemoryMultiprocessing._worker_process` dispatch: `terminate`
runs the teardown branch (whose first statement `self.envs.close()` is an
`AttributeError`, `MultiEnv` defining no `close`); `step` runs
`self.envs.step(actions_lists)` and then enters the
`for i, (obs, _, _, _) in enumerate(results)` loop whose body
`self.obs_np[i] = obs` raises `AttributeError` on its first iteration — the
worker was started before `obs_np` was created (see `SmWorkerSt`), so only an
empty result list (an empty pool) reaches the `(len(results), dones)` header;
every other request goes through the generic `getattr` dispatch.  (Had the
buffer existed, the assignment would still raise on an obs mapping, and the
buffer's `float32` dtype would coerce any rows it did store.) -/
def smWorkerHandle (spec : Env σ ο α) (st : SmWorkerSt σ ο) :
    Request α → Except Err (SmWorkerSt σ ο × Response ο)
  | .terminate => .error (.attributeError "MultiEnv object has no attribute close")
  | .step acts =>
      match multiEnvStep spec st.envs acts with
      | .error e => .error e
      | .ok r =>
          match r.2 with
          | [] => .ok (⟨r.1⟩, .header 0 [])
          | _ :: _ =>
              .error (.attributeError
                "SharedMemoryMultiprocessing object has no attribute obs_np")
  | req =>
      match multiEnvDispatch spec st.envs req with
      | .error e => .error e
      | .ok r => .ok (⟨r.1⟩, r.2)

/-- One `step`+`recv` round trip of the `Multiprocessing` (queues) backend:
the worker dispatches `step` onto its `MultiEnv` and the response carries the
full per-env result tuples. -/
def mpStepRoundtrip (spec : Env σ ο α) (envs : List σ) (acts : List (List (Nat × α))) :
    Except Err (List σ × List (EnvResult ο)) :=
  match multiEnvDispatch spec envs (.step acts) with
  | .error e => .error e
  | .ok (envs', .results rs) => .ok (envs', rs)
  | .ok _ => .error (.typeError "unexpected response")

/-- A concrete single-agent environment used to instantiate the generic
theorems: state is an `Int`; reset reports the seed (or `-1` when unseeded)
under agent key `0` and makes the state nonnegative; stepping reports the
state; the env is `done` exactly when its state is negative. -/
def cSpec : Env Int Int Int where
  reset st seed := (if st < 0 then -st else st, [(0, match seed with | some s => s | none => -1)])
  stepf st a := (st + (match a.head? with | some p => p.2 | none => 0),
                 ⟨[(0, st)], [(0, 1)], [(0, decide (st > 100))], [(0, 7)]⟩)
  done st := st < 0
  seedf _ s := s

example : pyDict [(1, 10), (2, 20), (1, 30)] = [(1, 30), (2, 20)] := by decide

example : npSplit [1, 2, 3, 4, 5, 6] 3 = .ok [[1, 2], [3, 4], [5, 6]] := rfl

example : npSplit [1, 2, 3] 2 =
    .error (.valueError "array split does not result in an equal division") := rfl

/-- A fresh one-worker, one-env orchestrator over a `Serial` backend. -/
def cV6 : VecEnvSt (SerialSt Int Int) :=
  ⟨1, 1, 1, Fsm.RESET, [⟨[3], none⟩], []⟩

/-- A fresh two-worker, two-envs-per-worker orchestrator over `Serial`
backends, used to instantiate the protocol theorems. -/
def cFresh : VecEnvSt (SerialSt Int Int) :=
  ⟨2, 2, 1, Fsm.RESET, [⟨[3, 5], none⟩, ⟨[7, 9], none⟩], []⟩

/-- Backend states after the `recv()` drained the handles, per worker. -/
def bfW : Nat → SerialSt Int Int := fun w => if w = 0 then ⟨[3, 5], none⟩ else ⟨[7, 9], none⟩

/-- Agent key of worker `w`, env `e` in the C1 witness scenario. -/
def kW : Nat → Nat → Nat := fun w e => 10 + 2 * w + e

/-- Observation of worker `w`, env `e` in the C1 witness scenario. -/
def oW : Nat → Nat → Int := fun w e => 100 + 2 * w + e

/-- Reward map of worker `w`, env `e` in the C1 witness scenario. -/
def rwsW : Nat → Nat → List (Nat × Int) := fun w e => [(10 + 2 * w + e, 0)]

/-- Done map of worker `w`, env `e` in the C1 witness scenario. -/
def dnsW : Nat → Nat → List (Nat × Bool) := fun w e => [(10 + 2 * w + e, false)]

/-- Info map of worker `w`, env `e` in the C1 witness scenario. -/
def ifsW : Nat → Nat → List (Nat × Int) := fun _ _ => []

/-- A two-worker, two-env orchestrator in state `RECV` whose `Serial` backends
hold completed results: worker `w`, env `e` reports the single agent key
`10 + 2w + e` with observation `100 + 2w + e`. -/
def cRecvReady : VecEnvSt (SerialSt Int Int) :=
  ⟨2, 2, 1, Fsm.RECV,
   [⟨[3, 5], some [⟨[(10, 100)], [(10, 0)], [(10, false)], []⟩,
                   ⟨[(11, 101)], [(11, 0)], [(11, false)], []⟩]⟩,
    ⟨[7, 9], some [⟨[(12, 102)], [(12, 0)], [(12, false)], []⟩,
                   ⟨[(13, 103)], [(13, 0)], [(13, false)], []⟩]⟩],
   []⟩

/-- The backend states after sending the flat batch `[0, 1, 2, 3]` through the
C1 witness orchestrator. -/
def cW : Nat → SerialSt Int Int := fun w =>
  if w = 0 then
    ⟨[3, 6], some [⟨[(0, 3)], [(0, 1)], [(0, false)], [(0, 7)]⟩,
                   ⟨[(0, 5)], [(0, 1)], [(0, false)], [(0, 7)]⟩]⟩
  else
    ⟨[9, 12], some [⟨[(0, 7)], [(0, 1)], [(0, false)], [(0, 7)]⟩,
                    ⟨[(0, 9)], [(0, 1)], [(0, false)], [(0, 7)]⟩]⟩

/-- A two-worker, one-env-per-worker orchestrator in state `SEND` whose ledger
records agent key `0` for each slot. -/
def cSendReady : VecEnvSt (SerialSt Int Int) :=
  ⟨2, 1, 1, Fsm.SEND, [⟨[3], none⟩, ⟨[7], none⟩], [[[0]], [[0]]]⟩
theorem flatMap_single {γ δ : Type} (l : List γ) (f : γ → δ) :
    (l.flatMap fun x => [f x]) = l.map f := by
  induction l with
  | nil => rfl
  | cons a t ih => simp [List.flatMap_cons, ih]

theorem range_succ_map {δ : Type} (n : Nat) (f : Nat → δ) :
    (List.range (n + 1)).map f = f 0 :: (List.range n).map (fun w => f (w + 1)) := by
  rw [List.range_succ_eq_map]
  simp [Function.comp]

theorem range_succ_flatMap {δ : Type} (n : Nat) (g : Nat → List δ) :
    (List.range (n + 1)).flatMap g = g 0 ++ (List.range n).flatMap (fun w => g (w + 1)) := by
  rw [List.range_succ_eq_map]
  simp [List.flatMap_cons, List.flatMap_map]

theorem flatMapGrid_length {δ : Type} :
    ∀ (W : Nat) (E : Nat) (g : Nat → Nat → δ),
      ((List.range W).flatMap (fun w => (List.range E).map (g w))).length = W * E
  | 0, E, g => by simp
  | W + 1, E, g => by
      rw [range_succ_flatMap]
      simp only [List.length_append, List.length_map, List.length_range]
      rw [flatMapGrid_length W E (fun w => g (w + 1))]
      ring

theorem flatMapGrid_get {δ : Type} :
    ∀ (W : Nat) (g : Nat → Nat → δ) (E i : Nat), i < W * E →
      ((List.range W).flatMap (fun w => (List.range E).map (g w)))[i]? =
        some (g (i / E) (i % E))
  | 0, g, E, i, h => absurd h (by simp)
  | W + 1, g, E, i, h => by
      have hE : 0 < E := by
        rcases Nat.eq_zero_or_pos E with h0 | h0
        · subst h0
          simp at h
        · exact h0
      rw [range_succ_flatMap, List.getElem?_append]
      by_cases hi : i < E
      · rw [if_pos (by simpa using hi)]
        rw [List.getElem?_map]
        simp [List.getElem?_range hi, Nat.div_eq_of_lt hi, Nat.mod_eq_of_lt hi]
      · push_neg at hi
        rw [if_neg (by simpa using Nat.not_lt.2 hi)]
        have hlt : i - E < W * E := by
          have : (W + 1) * E = W * E + E := by ring
          omega
        have ih := flatMapGrid_get W (fun w => g (w + 1)) E (i - E) hlt
        simp only [List.length_map, List.length_range]
        rw [ih]
        have hdiv : i / E = (i - E) / E + 1 := by
          rw [Nat.div_eq_sub_div hE hi]
        have hmod : i % E = (i - E) % E := Nat.mod_eq_sub_mod hi
        rw [hdiv, hmod]

theorem recvLoop_ok (ops : BackendOps β ο α) :
    ∀ (bs : List β) (bf : Nat → β) (res : Nat → List (EnvResult ο)),
      (∀ (w : Nat) (b : β), bs[w]? = some b → ops.recv b = .ok (bf w, res w)) →
      recvLoop ops bs = .ok ⟨(List.range bs.length).map bf,
        (List.range bs.length).map (fun w => (res w).map (fun r => r.obs.map Prod.fst)),
        (List.range bs.length).flatMap (fun w => (res w).flatMap (fun r => r.obs.map Prod.snd)),
        (List.range bs.length).flatMap (fun w => (res w).flatMap (fun r => r.rewards.map Prod.snd)),
        (List.range bs.length).flatMap (fun w => (res w).flatMap (fun r => r.dones.map Prod.snd)),
        (List.range bs.length).flatMap (fun w => (res w).map (fun r => r.infos))⟩
  | [], bf, res, h => by simp [recvLoop]
  | b :: bs, bf, res, h => by
      have hb : ops.recv b = .ok (bf 0, res 0) := h 0 b (by simp)
      have ih := recvLoop_ok ops bs (fun w => bf (w + 1)) (fun w => res (w + 1))
        (fun w b' hb' => h (w + 1) b' (by simpa using hb'))
      simp only [recvLoop, hb, ih, recvBackend, List.length_cons]
      rw [range_succ_map, range_succ_map, range_succ_flatMap, range_succ_flatMap,
        range_succ_flatMap, range_succ_flatMap]

theorem splitSections_length {δ : Type} :
    ∀ (n : Nat) (l : List δ) (k : Nat), (npSplit.splitSections l k n).length = n
  | 0, _, _ => rfl
  | n + 1, l, k => by
      simp [npSplit.splitSections, splitSections_length n (l.drop k) k]

theorem splitSections_get {δ : Type} :
    ∀ (n : Nat) (l : List δ) (k i : Nat),
      (npSplit.splitSections l k n)[i]? =
        if i < n then some ((l.drop (i * k)).take k) else none
  | 0, l, k, i => by simp [npSplit.splitSections]
  | n + 1, l, k, 0 => by simp [npSplit.splitSections]
  | n + 1, l, k, i + 1 => by
      simp only [npSplit.splitSections, List.getElem?_cons_succ]
      rw [splitSections_get n (l.drop k) k i]
      rcases Nat.lt_or_ge i n with hi | hi
      · rw [if_pos hi, if_pos (by omega)]
        rw [List.drop_drop]
        congr 3
        ring
      · rw [if_neg (by omega), if_neg (by omega)]

theorem npSplit_dvd {δ : Type} (l : List δ) (n : Nat) (hn : 0 < n) (hd : l.length % n = 0) :
    npSplit l n = .ok (npSplit.splitSections l (l.length / n) n) := by
  simp [npSplit, Nat.pos_iff_ne_zero.1 hn, hd]

theorem sendLoop_ok (ops : BackendOps β ο α) (epw : Nat) :
    ∀ (bs : List β) (ks : List (List (List Nat))) (cs : List (List α)) (cF : Nat → β),
      bs.length = ks.length → bs.length = cs.length →
      (∀ (w : Nat) (b : β) (keys : List (List Nat)) (chunk : List α),
        bs[w]? = some b → ks[w]? = some keys → cs[w]? = some chunk →
        ∃ subs, npSplit chunk epw = .ok subs ∧
          ops.send b ((keys.zip subs).map (fun p => pyDict (p.1.zip p.2))) = .ok (cF w)) →
      sendLoop ops epw bs ks cs = .ok ((List.range bs.length).map cF)
  | [], ks, cs, cF, hk, hc, h => by
      cases ks with
      | nil =>
          cases cs with
          | nil => simp [sendLoop]
          | cons c cs => simp at hc
      | cons k ks => simp at hk
  | b :: bs, ks, cs, cF, hk, hc, h => by
      cases ks with
      | nil => simp at hk
      | cons keys ks =>
          cases cs with
          | nil => simp at hc
          | cons chunk cs =>
              obtain ⟨subs, hsubs, hsend⟩ := h 0 b keys chunk (by simp) (by simp) (by simp)
              have ih := sendLoop_ok ops epw bs ks cs (fun w => cF (w + 1))
                (by simpa using hk) (by simpa using hc)
                (fun w b' keys' chunk' hb' hk' hc' =>
                  h (w + 1) b' keys' chunk' (by simpa using hb') (by simpa using hk')
                    (by simpa using hc'))
              simp only [sendLoop, hsubs, hsend, ih, List.length_cons]
              rw [range_succ_map]

theorem stepLoop_snd (spec : Env σ ο α) :
    ∀ (envs : List σ) (acts : List (List (Nat × α))),
      (stepLoop spec envs acts).2 = (envs.zip acts).map (fun p => (stepSlot spec p.1 p.2).2)
  | [], acts => by cases acts <;> simp [stepLoop]
  | st :: sts, [] => by simp [stepLoop]
  | st :: sts, a :: as_ => by
      simp [stepLoop, stepLoop_snd spec sts as_]

theorem stepLoop_fst (spec : Env σ ο α) :
    ∀ (envs : List σ) (acts : List (List (Nat × α))), envs.length = acts.length →
      (stepLoop spec envs acts).1 = (envs.zip acts).map (fun p => (stepSlot spec p.1 p.2).1)
  | [], acts, h => by cases acts <;> simp_all [stepLoop]
  | st :: sts, [], h => by simp at h
  | st :: sts, a :: as_, h => by
      simp only [List.length_cons, Nat.add_right_cancel_iff] at h
      simp [stepLoop, stepLoop_fst spec sts as_ h]

/-- Claim C2: `EnvPool.step` auto-resets a slot whose env finished on the
previous step — the fresh reset observation with zero rewards, all-false dones
and empty infos replaces the result, and the submitted action for that slot is
never applied — while every other slot gets `env.step(actions)`. -/
theorem envPoolAutoReset (spec : Env σ ο α) (envs : List σ) (acts : List (List (Nat × α)))
    (h : envs.length = acts.length) :
    ∃ envs' results, multiEnvStep spec envs acts = .ok (envs', results) ∧
      results.length = envs.length ∧ envs'.length = envs.length ∧
      ∀ i : Nat, ∀ st a, envs[i]? = some st → acts[i]? = some a →
        (spec.done st →
          results[i]? = some ⟨(spec.reset st none).2,
            ((spec.reset st none).2).map (fun p => (p.1, (0 : Int))),
            ((spec.reset st none).2).map (fun p => (p.1, false)), []⟩ ∧
          envs'[i]? = some (spec.reset st none).1) ∧
        (¬ spec.done st →
          results[i]? = some (spec.stepf st a).2 ∧ envs'[i]? = some (spec.stepf st a).1) := by
  refine ⟨(stepLoop spec envs acts).1, (stepLoop spec envs acts).2, ?_, ?_, ?_, ?_⟩
  · simp [multiEnvStep, h]
  · rw [stepLoop_snd]
    simp [List.length_zip, h]
  · rw [stepLoop_fst spec envs acts h]
    simp [List.length_zip, h]
  · intro i st a hst ha
    have hzip : (envs.zip acts)[i]? = some (st, a) := by
      rw [← List.get?_eq_getElem?] at hst ha ⊢
      exact (List.get?_zip_eq_some envs acts (st, a) i).2 ⟨hst, ha⟩
    constructor
    · intro hdone
      rw [stepLoop_snd, stepLoop_fst spec envs acts h]
      simp [List.getElem?_map, hzip, stepSlot, hdone]
    · intro hdone
      rw [stepLoop_snd, stepLoop_fst spec envs acts h]
      simp [List.getElem?_map, hzip, stepSlot, hdone]

/-- Claim C2 witness: a two-env pool, one env already done (negative state) and
one running; the done slot is auto-reset (its action `[(0, 9)]` is discarded)
and the other slot is stepped. -/
theorem envPoolAutoReset_witness :
    ([(-4 : Int), 3].length = [[((0 : Nat), (9 : Int))], [(0, 2)]].length) ∧
    (∃ envs' results,
      multiEnvStep cSpec [(-4 : Int), 3] [[((0 : Nat), (9 : Int))], [(0, 2)]] =
        .ok (envs', results) ∧
      results.length = 2 ∧ envs'.length = 2 ∧
      results[0]? = some ⟨[(0, -1)], [(0, 0)], [(0, false)], []⟩ ∧
      results[1]? = some ⟨[(0, 3)], [(0, 1)], [(0, false)], [(0, 7)]⟩) := by
  refine ⟨rfl, ?_⟩
  obtain ⟨envs', results, h1, h2, h3, h4⟩ :=
    envPoolAutoReset cSpec [(-4 : Int), 3] [[((0 : Nat), (9 : Int))], [(0, 2)]] rfl
  refine ⟨envs', results, h1, h2, h3, ?_, ?_⟩
  · have := ((h4 0 (-4) [(0, 9)] (by rfl) (by rfl)).1 (by decide)).1
    simpa [cSpec] using this
  · have := ((h4 1 3 [(0, 2)] (by rfl) (by rfl)).2 (by decide)).1
    simpa [cSpec] using this

/-- Claim C3: the orchestrator FSM admits exactly
`RESET -> RECV -> (SEND -> RECV)*`: `send` in state `RESET` asserts, `recv`
outside state `RECV` asserts (so a second `recv` without an intervening `send`
asserts), `async_reset` outside state `RESET` asserts (so a second
`async_reset` asserts), and successful `async_reset`, `recv`, `send` move the
state to `RECV`, `SEND`, `RECV` respectively. -/
theorem fsmProtocol (ops : BackendOps β ο α) :
    (∀ (v : VecEnvSt β) (acts : List α), v.state = Fsm.RESET →
      ∃ m, vecSend ops v acts = .error (.assertionError m)) ∧
    (∀ (v : VecEnvSt β), v.state = Fsm.SEND →
      ∃ m, vecRecv ops v = .error (.assertionError m)) ∧
    (∀ (v : VecEnvSt β) (s : Option Int), v.state ≠ Fsm.RESET →
      ∃ m, vecAsyncReset ops v s = .error (.assertionError m)) ∧
    (∀ (v v' : VecEnvSt β) (s : Option Int),
      vecAsyncReset ops v s = .ok v' → v'.state = Fsm.RECV) ∧
    (∀ (v v' : VecEnvSt β) r, vecRecv ops v = .ok (v', r) → v'.state = Fsm.SEND) ∧
    (∀ (v v' : VecEnvSt β) (acts : List α),
      vecSend ops v acts = .ok v' → v'.state = Fsm.RECV) := by
  refine ⟨?_, ?_, ?_, ?_, ?_, ?_⟩
  · intro v acts hst
    exact ⟨"Call reset + recv before send", by simp [vecSend, hst]⟩
  · intro v hst
    exact ⟨"Call reset before stepping", by simp [vecRecv, hst]⟩
  · intro v s hst
    exact ⟨"Call reset only once on initialization", by simp [vecAsyncReset, hst]⟩
  · intro v v' s hok
    unfold vecAsyncReset at hok
    split at hok
    · split at hok
      · exact absurd hok (by simp)
      · cases hok
        rfl
    · exact absurd hok (by simp)
  · intro v v' r hok
    unfold vecRecv at hok
    split at hok
    · split at hok
      · exact absurd hok (by simp)
      · split at hok
        · exact absurd hok (by simp)
        · cases hok
          rfl
    · exact absurd hok (by simp)
  · intro v v' acts hok
    unfold vecSend at hok
    split at hok
    · split at hok
      · exact absurd hok (by simp)
      · split at hok
        · exact absurd hok (by simp)
        · cases hok
          rfl
    · exact absurd hok (by simp)

/-- Claim C9: a non-positive or non-`int` `envs_per_worker` makes construction
fail with an error that does not depend on the backend constructor (so no
backend is created or started); a positive `int` yields exactly `num_workers`
backends. -/
theorem initValidation (num_workers max_agents : Nat) (ev : PyVal) :
    ((¬ ∃ n : Int, 0 < n ∧ ev = .pyInt n) →
      ∃ e, ∀ (β : Type) (mk : Nat → β),
        vecEnvInit mk num_workers max_agents ev = .error e) ∧
    (∀ n : Int, 0 < n → ev = .pyInt n →
      ∀ (β : Type) (mk : Nat → β),
        ∃ v, vecEnvInit mk num_workers max_agents ev = .ok v ∧
          v.backends.length = num_workers ∧
          v.backends = (List.range num_workers).map (fun _ => mk n.toNat) ∧
          v.state = Fsm.RESET ∧ v.envs_per_worker = n.toNat) := by
  constructor
  · intro hnot
    cases ev with
    | pyInt n =>
        have hn : ¬ 0 < n := fun h => hnot ⟨n, h, rfl⟩
        exact ⟨.assertionError "Each worker must have at least 1 env",
          fun β mk => by simp [vecEnvInit, pyGtZero, hn]⟩
    | pyBool b =>
        cases b
        · exact ⟨.assertionError "Each worker must have at least 1 env",
            fun β mk => by simp [vecEnvInit, pyGtZero]⟩
        · exact ⟨.assertionError "type",
            fun β mk => by simp [vecEnvInit, pyGtZero, pyIsIntType]⟩
    | pyFloat q =>
        by_cases hq : 0 < q
        · exact ⟨.assertionError "type",
            fun β mk => by simp [vecEnvInit, pyGtZero, pyIsIntType, hq]⟩
        · exact ⟨.assertionError "Each worker must have at least 1 env",
            fun β mk => by simp [vecEnvInit, pyGtZero, hq]⟩
    | pyNone =>
        exact ⟨.typeError "not supported between instances of NoneType and int",
          fun β mk => by simp [vecEnvInit, pyGtZero]⟩
    | pyStr s =>
        exact ⟨.typeError "not supported between instances of str and int",
          fun β mk => by simp [vecEnvInit, pyGtZero]⟩
  · rintro n hn rfl β mk
    refine ⟨{ num_workers := num_workers, envs_per_worker := n.toNat,
              max_agents := max_agents, state := Fsm.RESET,
              backends := (List.range num_workers).map (fun _ => mk n.toNat),
              agent_keys := [] }, ?_, by simp, rfl, rfl, rfl⟩
    simp [vecEnvInit, pyGtZero, pyIsIntType, hn]

/-- Claim C9 witness: `envs_per_worker = 0` and `envs_per_worker = 2.5` are
rejected with a backend-independent error, while `envs_per_worker = 2` builds
three backends. -/
theorem initValidation_witness :
    ((¬ ∃ n : Int, 0 < n ∧ PyVal.pyInt 0 = .pyInt n) ∧
      ∃ e, ∀ (β : Type) (mk : Nat → β), vecEnvInit mk 3 1 (.pyInt 0) = .error e) ∧
    ((¬ ∃ n : Int, 0 < n ∧ PyVal.pyFloat (5 / 2) = .pyInt n) ∧
      ∃ e, ∀ (β : Type) (mk : Nat → β), vecEnvInit mk 3 1 (.pyFloat (5 / 2)) = .error e) ∧
    (∃ v, vecEnvInit (fun n => (⟨List.replicate n 3, none⟩ : SerialSt Int Int)) 3 1
        (.pyInt 2) = .ok v ∧ v.backends.length = 3) := by
  refine ⟨⟨?_, (initValidation 3 1 (.pyInt 0)).1 ?_⟩, ⟨?_, (initValidation 3 1 (.pyFloat (5 / 2))).1 ?_⟩, ?_⟩
  · rintro ⟨n, hn, h⟩
    cases h
    exact absurd hn (by decide)
  · rintro ⟨n, hn, h⟩
    cases h
    exact absurd hn (by decide)
  · rintro ⟨n, hn, h⟩
    cases h
  · rintro ⟨n, hn, h⟩
    cases h
  · obtain ⟨v, h1, h2, _⟩ :=
      (initValidation 3 1 (.pyInt 2)).2 2 (by decide) rfl (SerialSt Int Int)
        (fun n => ⟨List.replicate n 3, none⟩)
    exact ⟨v, h1, h2⟩

/-- Claim C1: with `W` workers and `E` single-agent-key envs per worker, row
`i` of the stacked observation batch returned by `recv()` is the observation
of worker `i / E`, env `i % E`; the ledger records that slot's agent key; and
sending a flat batch of length `W*E` afterwards routes entry `w*E + e` to
worker `w`, env `e`, zipped onto the recorded agent key. -/
theorem orderingLaw (ops : BackendOps β ο α) (v : VecEnvSt β) (W E : Nat)
    (bf : Nat → β) (k : Nat → Nat → Nat) (o : Nat → Nat → ο)
    (rws : Nat → Nat → List (Nat × Int)) (dns : Nat → Nat → List (Nat × Bool))
    (ifs : Nat → Nat → List (Nat × Int))
    (hW : 0 < W) (hE : 0 < E)
    (hstate : v.state = Fsm.RECV)
    (hnw : v.num_workers = W) (hepw : v.envs_per_worker = E)
    (hblen : v.backends.length = W)
    (hrecv : ∀ (w : Nat) (b : β), v.backends[w]? = some b →
      ops.recv b = .ok (bf w, (List.range E).map
        (fun e => ⟨[(k w e, o w e)], rws w e, dns w e, ifs w e⟩))) :
    ∃ v' stacked rews dons infs,
      vecRecv ops v = .ok (v', stacked, rews, dons, infs) ∧
      v'.state = Fsm.SEND ∧ stacked.length = W * E ∧
      (∀ i : Nat, i < W * E → stacked[i]? = some (o (i / E) (i % E))) ∧
      (∀ w e : Nat, w < W → e < E →
        (v'.agent_keys[w]?).bind (fun ks => ks[e]?) = some [k w e]) ∧
      (∀ (a : Nat → α) (c : Nat → β),
        (∀ w : Nat, w < W →
          ops.send (bf w)
            ((List.range E).map (fun e => [(k w e, a (w * E + e))])) = .ok (c w)) →
        ∃ v'', vecSend ops v' ((List.range (W * E)).map a) = .ok v'' ∧
          v''.state = Fsm.RECV ∧ v''.backends.length = W ∧
          ∀ w : Nat, w < W → v''.backends[w]? = some (c w)) := by
  have hloop := recvLoop_ok ops v.backends bf
    (fun w => (List.range E).map
      (fun e => (⟨[(k w e, o w e)], rws w e, dns w e, ifs w e⟩ : EnvResult ο))) hrecv
  rw [hblen] at hloop
  have hloop' : recvLoop ops v.backends = .ok
      ⟨(List.range W).map bf,
       (List.range W).map (fun w => (List.range E).map (fun e => [k w e])),
       (List.range W).flatMap (fun w => (List.range E).map (fun e => o w e)),
       (List.range W).flatMap (fun w => (List.range E).flatMap (fun e => (rws w e).map Prod.snd)),
       (List.range W).flatMap (fun w => (List.range E).flatMap (fun e => (dns w e).map Prod.snd)),
       (List.range W).flatMap (fun w => (List.range E).map (fun e => ifs w e))⟩ := by
    rw [hloop]
    simp [List.flatMap_map, List.map_map, flatMap_single, Function.comp, Function.comp_def]
  have hpos : 0 < W * E := Nat.mul_pos hW hE
  have hobslen : ((List.range W).flatMap
      (fun w => (List.range E).map (fun e => o w e))).length = W * E :=
    flatMapGrid_length W E o
  have hne : ¬ ((List.range W).flatMap
      (fun w => (List.range E).map (fun e => o w e))).isEmpty = true := by
    rw [List.isEmpty_iff]
    intro hnil
    rw [hnil] at hobslen
    simp at hobslen
    omega
  have hstack : npStack ((List.range W).flatMap
      (fun w => (List.range E).map (fun e => o w e))) = .ok ((List.range W).flatMap
      (fun w => (List.range E).map (fun e => o w e))) := by
    simp [npStack, hne]
  have hrecvEq : vecRecv ops v = .ok
      ({ v with state := Fsm.SEND, backends := (List.range W).map bf, agent_keys := (List.range W).map (fun w => (List.range E).map (fun e => [k w e])) },
       (List.range W).flatMap (fun w => (List.range E).map (fun e => o w e)),
       (List.range W).flatMap (fun w => (List.range E).flatMap (fun e => (rws w e).map Prod.snd)),
       (List.range W).flatMap (fun w => (List.range E).flatMap (fun e => (dns w e).map Prod.snd)),
       (List.range W).flatMap (fun w => (List.range E).map (fun e => ifs w e))) := by
    unfold vecRecv
    rw [if_pos hstate, hloop']
    simp only [hstack]
  refine ⟨_, _, _, _, _, hrecvEq, rfl, hobslen, ?_, ?_, ?_⟩
  · intro i hi
    exact flatMapGrid_get W o E i hi
  · intro w e hw he
    simp [List.getElem?_map, List.getElem?_range, hw, he]
  · intro a c hsend
    have hactslen : ((List.range (W * E)).map a).length = W * E := by simp
    have h1 : ((List.range (W * E)).map a).length % W = 0 := by
      rw [hactslen]
      exact Nat.mul_mod_right W E
    have h2 : ((List.range (W * E)).map a).length / W = E := by
      rw [hactslen]
      exact Nat.mul_div_cancel_left E hW
    have hsplit := npSplit_dvd ((List.range (W * E)).map a) W hW h1
    rw [h2] at hsplit
    have hsloop : sendLoop ops E ((List.range W).map bf)
        ((List.range W).map (fun w => (List.range E).map (fun e => [k w e])))
        (npSplit.splitSections ((List.range (W * E)).map a) E W) =
        .ok ((List.range ((List.range W).map bf).length).map c) := by
      apply sendLoop_ok
      · simp
      · simp [splitSections_length]
      · intro w b keys chunk hb hk hc
        have hw : w < W := by
          by_contra hge
          push_neg at hge
          rw [List.getElem?_map, List.getElem?_eq_none (by simpa using hge)] at hb
          simp at hb
        rw [List.getElem?_map, List.getElem?_range hw] at hb hk
        have hb2 : bf w = b := by simpa using hb
        have hk2 : (List.range E).map (fun e => [k w e]) = keys := by simpa using hk
        rw [splitSections_get, if_pos hw] at hc
        simp only [Option.some.injEq] at hc
        subst hb2
        subst hk2
        subst hc
        have hchunklen : ((((List.range (W * E)).map a).drop (w * E)).take E).length = E := by
          simp only [List.length_take, List.length_drop, hactslen]
          have hwE : w * E + E ≤ W * E := by
            have h3 : w + 1 ≤ W := hw
            calc w * E + E = (w + 1) * E := by ring
              _ ≤ W * E := Nat.mul_le_mul_right E h3
          omega
        have hcm : ((((List.range (W * E)).map a).drop (w * E)).take E).length % E = 0 := by
          rw [hchunklen]
          exact Nat.mod_self E
        have hcd : ((((List.range (W * E)).map a).drop (w * E)).take E).length / E = 1 := by
          rw [hchunklen]
          exact Nat.div_self hE
        have hchsplit := npSplit_dvd ((((List.range (W * E)).map a).drop (w * E)).take E) E hE hcm
        rw [hcd] at hchsplit
        refine ⟨_, hchsplit, ?_⟩
        have hsubs : npSplit.splitSections ((((List.range (W * E)).map a).drop (w * E)).take E) 1 E =
            (List.range E).map (fun e => [a (w * E + e)]) := by
          apply List.ext_getElem?
          intro i
          rw [splitSections_get]
          by_cases hi : i < E
          · rw [if_pos hi]
            have hib : i < ((((List.range (W * E)).map a).drop (w * E)).take E).length := by
              rw [hchunklen]
              exact hi
            have hgi : ((((List.range (W * E)).map a).drop (w * E)).take E)[i] = a (w * E + i) := by
              have hq : ((((List.range (W * E)).map a).drop (w * E)).take E)[i]? =
                  some (a (w * E + i)) := by
                rw [List.getElem?_take, if_pos hi, List.getElem?_drop, List.getElem?_map,
                  List.getElem?_range (by
                    have hwE : w * E + E ≤ W * E := by
                      have h3 : w + 1 ≤ W := hw
                      calc w * E + E = (w + 1) * E := by ring
                        _ ≤ W * E := Nat.mul_le_mul_right E h3
                    omega)]
                rfl
              rw [List.getElem?_eq_getElem hib] at hq
              exact Option.some.inj hq
            rw [Nat.mul_one, List.drop_eq_getElem_cons hib, hgi]
            simp [List.getElem?_map, List.getElem?_range, hi]
          · rw [if_neg hi]
            push_neg at hi
            rw [List.getElem?_map, List.getElem?_eq_none (by simpa using hi)]
            rfl
        rw [hsubs, List.zip_map', List.map_map]
        have hmapeq : ((List.range E).map
            ((fun p : List Nat × List α => pyDict (p.1.zip p.2)) ∘
              (fun e => ([k w e], [a (w * E + e)])))) =
            (List.range E).map (fun e => [(k w e, a (w * E + e))]) := by
          apply List.map_congr_left
          intro e _
          simp [Function.comp, pyDict, dictInsert]
        rw [hmapeq]
        exact hsend w hw
    rw [List.length_map, List.length_range] at hsloop
    refine ⟨{ v with state := Fsm.RECV, backends := (List.range W).map c, agent_keys := (List.range W).map (fun w => (List.range E).map (fun e => [k w e])) }, ?_, rfl, by simp, ?_⟩
    · simp [vecSend, hnw, hepw, hsplit, hsloop]
    · intro w hw
      simp [List.getElem?_map, List.getElem?_range, hw]

/-- Claim C8 (code bug): `close()` on a freshly constructed `Serial`-backed
orchestrator raises `NotImplementedError` — `Serial` inherits `close` from
`Backend` (neither `Serial` nor `MultiEnv` overrides it), so the claimed
"succeeds without error" fails at the very first backend. -/
theorem serialCloseRaises :
    ∃ v, vecEnvInit (fun n => (⟨List.replicate n 3, none⟩ : SerialSt Int Int)) 2 1
        (.pyInt 2) = .ok v ∧
      vecClose (serialOps cSpec) v.backends = .error Err.notImplementedError := by
  exact ⟨_, rfl, rfl⟩

/-- Claim C7 (code bug): `Multiprocessing.close()` (inherited by the
shared-memory backend) enqueues the generic `close` message, not the distinct
`terminate` teardown message; the shared-memory worker forwards `close` through
the generic `getattr` dispatch, which raises `AttributeError` because
`MultiEnv` defines no `close`; and even the `terminate` branch itself raises
`AttributeError` on its first statement `self.envs.close()`.  The teardown
handler that would release the shared buffer is therefore never reached via
`close()`. -/
theorem closeNeverSendsTeardown :
    (∀ (q : List (Request Int)), mpClose q = q ++ [Request.close]) ∧
    (Request.close (α := Int)) ≠ Request.terminate ∧
    (∀ st : SmWorkerSt Int Int, smWorkerHandle cSpec st Request.close =
      .error (.attributeError "MultiEnv object has no attribute close")) ∧
    (∀ st : SmWorkerSt Int Int, smWorkerHandle cSpec st Request.terminate =
      .error (.attributeError "MultiEnv object has no attribute close")) := by
  refine ⟨fun q => rfl, by decide, fun st => rfl, fun st => rfl⟩

/-- Claim C6 counterexample: `reset(5)` does not forward the seed — composing
`async_reset(5)` with `recv()[0]` yields the observation `[5]`, while
`reset(5)` yields `[-1]` (the unseeded reset observation). -/
theorem resetDropsSeed_counterexample :
    (∃ v1, vecAsyncReset (serialOps cSpec) cV6 (some 5) = .ok v1 ∧
      ∃ r, vecRecv (serialOps cSpec) v1 = .ok r ∧ r.2.1 = [5]) ∧
    (∃ r, vecReset (serialOps cSpec) cV6 (some 5) = .ok r ∧ r.2 = [-1]) ∧
    ([(5 : Int)] ≠ [(-1 : Int)]) := by
  refine ⟨⟨_, rfl, _, rfl, rfl⟩, ⟨_, rfl, rfl⟩, by decide⟩

/-- Claim C6 as amended: `reset(seed)` ignores its `seed` argument — it is
observably `async_reset()` with no seed followed by `recv()[0]` — and
`step(actions)` is `send(actions)` followed by `recv()`. -/
theorem resetStepCompositions (ops : BackendOps β ο α) (v : VecEnvSt β) :
    (∀ (s s' : Option Int), vecReset ops v s = vecReset ops v s') ∧
    (∀ (s : Option Int) (v' : VecEnvSt β) (o : List ο),
      vecReset ops v s = .ok (v', o) ↔
        ∃ v1 rew don inf, vecAsyncReset ops v none = .ok v1 ∧
          vecRecv ops v1 = .ok (v', o, rew, don, inf)) ∧
    (∀ (acts : List α) (out : VecEnvSt β × List ο × List Int × List Bool × List (List (Nat × Int))),
      vecStep ops v acts = .ok out ↔
        ∃ v1, vecSend ops v acts = .ok v1 ∧ vecRecv ops v1 = .ok out) := by
  refine ⟨fun s s' => rfl, ?_, ?_⟩
  · intro s v' o
    unfold vecReset
    cases h1 : vecAsyncReset ops v none with
    | error e => simp [h1]
    | ok v1 =>
        cases h2 : vecRecv ops v1 with
        | error e => simp [h1, h2]
        | ok r =>
            obtain ⟨rv, ro, rr, rd, ri⟩ := r
            simp only [h1, h2, Except.ok.injEq, Prod.mk.injEq]
            aesop
  · intro acts out
    unfold vecStep
    cases h1 : vecSend ops v acts with
    | error e => simp [h1]
    | ok v1 => simp [h1]

theorem resetAllLoop_length (spec : Env σ ο α) :
    ∀ (l : List σ) (s : Option Int),
      (resetAllLoop spec l s).1.length = l.length ∧
      (resetAllLoop spec l s).2.length = l.length
  | [], _ => ⟨rfl, rfl⟩
  | st :: rest, s => by
      have := resetAllLoop_length spec rest
        (match s with | none => none | some s0 => some (s0 + 1))
      simp only [resetAllLoop, List.length_cons]
      exact ⟨by rw [this.1], by rw [this.2]⟩

theorem resetAllLoop_get (spec : Env σ ο α) :
    ∀ (l : List σ) (s0 : Int) (e : Nat) (st : σ), l[e]? = some st →
      ((resetAllLoop spec l (some s0)).2)[e]? =
        some ⟨(spec.reset st (some (s0 + e))).2, [], [], []⟩ ∧
      ((resetAllLoop spec l (some s0)).1)[e]? =
        some (spec.reset st (some (s0 + e))).1
  | [], s0, e, st, h => by simp at h
  | x :: rest, s0, 0, st, h => by
      simp only [List.getElem?_cons_zero, Option.some.injEq] at h
      subst h
      simp [resetAllLoop]
  | x :: rest, s0, e + 1, st, h => by
      simp only [List.getElem?_cons_succ] at h
      have ih := resetAllLoop_get spec rest (s0 + 1) e st h
      have harith : s0 + 1 + (e : Int) = s0 + ((e : Nat) + 1 : Nat) := by
        push_cast
        ring
      rw [harith] at ih
      simpa [resetAllLoop] using ih

theorem asyncResetLoop_serial_ok (spec : Env σ ο α) (inc : Nat) :
    ∀ (bs : List (SerialSt σ ο)), (∀ b ∈ bs, b.async_handles = none) → ∀ (s0 : Int),
      ∃ bs', asyncResetLoop (serialOps spec) inc bs (some s0) = .ok bs' ∧
        bs'.length = bs.length ∧
        ∀ (w : Nat) (b : SerialSt σ ο), bs[w]? = some b →
          bs'[w]? = some ⟨(resetAllLoop spec b.envs (some (s0 + w * inc))).1,
                          some (resetAllLoop spec b.envs (some (s0 + w * inc))).2⟩
  | [], _, s0 => ⟨[], rfl, rfl, fun w b h => by simp at h⟩
  | b :: bs, hnone, s0 => by
      have hb : b.async_handles = none := hnone b (List.mem_cons_self b bs)
      obtain ⟨rest', hrest, hlen, hget⟩ :=
        asyncResetLoop_serial_ok spec inc bs (fun x hx => hnone x (List.mem_cons_of_mem b hx))
          (s0 + inc)
      refine ⟨⟨(resetAllLoop spec b.envs (some s0)).1,
               some (resetAllLoop spec b.envs (some s0)).2⟩ :: rest', ?_, ?_, ?_⟩
      · have h1 : (serialOps spec).async_reset_all b (some s0) =
            Except.ok ⟨(resetAllLoop spec b.envs (some s0)).1,
                       some (resetAllLoop spec b.envs (some s0)).2⟩ := by
          simp [serialOps, hb]
        simp only [asyncResetLoop, h1, hrest]
      · simp [hlen]
      · intro w x hx
        cases w with
        | zero =>
            simp only [List.getElem?_cons_zero, Option.some.injEq] at hx
            subst hx
            simp
        | succ w =>
            simp only [List.getElem?_cons_succ] at hx ⊢
            have harith : s0 + (inc : Int) + (w : Int) * (inc : Int) =
                s0 + (((w + 1 : Nat) : Int)) * (inc : Int) := by
              push_cast
              ring
            rw [hget w x hx, harith]

/-- Claim C5: `async_reset(s)` hands worker `w` the base seed
`s + w * envs_per_worker * max_agents`, within each worker the envs are reset
with consecutive seeds `base, base+1, …`, and when `max_agents ≥ 1` the seed
ranges of distinct workers are disjoint. -/
theorem seedFanout (spec : Env σ ο α) (v : VecEnvSt (SerialSt σ ο)) (s : Int)
    (hstate : v.state = Fsm.RESET)
    (hnone : ∀ b ∈ v.backends, b.async_handles = none) :
    ∃ v', vecAsyncReset (serialOps spec) v (some s) = .ok v' ∧
      v'.state = Fsm.RECV ∧ v'.backends.length = v.backends.length ∧
      (∀ (w : Nat) (b : SerialSt σ ο), v.backends[w]? = some b →
        ∃ b', v'.backends[w]? = some b' ∧
          (∃ hs, b'.async_handles = some hs ∧ hs.length = b.envs.length ∧
            ∀ (e : Nat) (st : σ), b.envs[e]? = some st →
              hs[e]? = some ⟨(spec.reset st
                (some (s + w * v.envs_per_worker * v.max_agents + e))).2, [], [], []⟩ ∧
              b'.envs[e]? = some (spec.reset st
                (some (s + w * v.envs_per_worker * v.max_agents + e))).1)) ∧
      (1 ≤ v.max_agents →
        ∀ w w' e e' : Nat, w < w' → e < v.envs_per_worker → e' < v.envs_per_worker →
          s + w * v.envs_per_worker * v.max_agents + e ≠
          s + w' * v.envs_per_worker * v.max_agents + e') := by
  obtain ⟨bs', hloop, hlen, hget⟩ :=
    asyncResetLoop_serial_ok spec (v.envs_per_worker * v.max_agents) v.backends hnone s
  simp only [Nat.cast_mul, ← mul_assoc] at hget
  refine ⟨{ v with state := Fsm.RECV, backends := bs' }, ?_, rfl, hlen, ?_, ?_⟩
  · simp [vecAsyncReset, hstate, hloop]
  · intro w b hb
    have hb' := hget w b hb
    refine ⟨_, hb', ?_⟩
    refine ⟨(resetAllLoop spec b.envs
        (some (s + (w : Int) * v.envs_per_worker * v.max_agents))).2, rfl, ?_, ?_⟩
    · exact (resetAllLoop_length spec b.envs _).2
    · intro e st hst
      exact resetAllLoop_get spec b.envs
        (s + (w : Int) * v.envs_per_worker * v.max_agents) e st hst
  · intro hM w w' e e' hw he he'
    intro hcontra
    have hcast : (w : Int) * v.envs_per_worker * v.max_agents + e =
        (w' : Int) * v.envs_per_worker * v.max_agents + e' := by linarith
    have hnat : w * v.envs_per_worker * v.max_agents + e =
        w' * v.envs_per_worker * v.max_agents + e' := by
      exact_mod_cast hcast
    have hEM : v.envs_per_worker ≤ v.envs_per_worker * v.max_agents :=
      Nat.le_mul_of_pos_right _ hM
    have hlt : w * v.envs_per_worker * v.max_agents + e <
        w' * v.envs_per_worker * v.max_agents := by
      calc w * v.envs_per_worker * v.max_agents + e
          < w * v.envs_per_worker * v.max_agents + v.envs_per_worker * v.max_agents := by
            have : e < v.envs_per_worker * v.max_agents := lt_of_lt_of_le he hEM
            omega
        _ = (w + 1) * (v.envs_per_worker * v.max_agents) := by ring
        _ ≤ w' * (v.envs_per_worker * v.max_agents) :=
            Nat.mul_le_mul_right _ hw
        _ = w' * v.envs_per_worker * v.max_agents := by ring
    omega

/-- Claim C5 witness: on the concrete two-worker orchestrator seeded with 10,
worker 1's second env is reset with seed `10 + 1*2*1 + 1 = 13`. -/
theorem seedFanout_witness :
    cFresh.state = Fsm.RESET ∧ (∀ b ∈ cFresh.backends, b.async_handles = none) ∧
    ∃ v', vecAsyncReset (serialOps cSpec) cFresh (some 10) = .ok v' ∧
      ∃ b', v'.backends[1]? = some b' ∧ ∃ hs, b'.async_handles = some hs ∧
        hs[1]? = some ⟨[(0, 13)], [], [], []⟩ := by
  have hnone : ∀ b ∈ cFresh.backends, b.async_handles = none := by
    intro b hb
    fin_cases hb <;> rfl
  refine ⟨rfl, hnone, ?_⟩
  obtain ⟨v', h1, _, _, h4, _⟩ := seedFanout cSpec cFresh 10 rfl hnone
  obtain ⟨b', hb', hs, hhs, _, hpt⟩ := h4 1 ⟨[7, 9], none⟩ (by rfl)
  refine ⟨v', h1, b', hb', hs, hhs, ?_⟩
  have h9 := (hpt 1 9 (by rfl)).1
  norm_num [cSpec] at h9
  convert h9 using 2

/-- Claim C3 witness: the protocol assertions observed on a concrete fresh
orchestrator and on its `RECV`/`SEND`-state variants. -/
theorem fsmProtocol_witness :
    (∃ m, vecSend (serialOps cSpec) cFresh [(0 : Int)] = .error (.assertionError m)) ∧
    (∃ m, vecRecv (serialOps cSpec) { cFresh with state := Fsm.SEND } =
      .error (.assertionError m)) ∧
    (∃ m, vecAsyncReset (serialOps cSpec) { cFresh with state := Fsm.RECV } (some 0) =
      .error (.assertionError m)) ∧
    (∃ v', vecAsyncReset (serialOps cSpec) cFresh (some 0) = .ok v' ∧
      v'.state = Fsm.RECV) := by
  refine ⟨(fsmProtocol (serialOps cSpec)).1 cFresh [0] rfl,
          (fsmProtocol (serialOps cSpec)).2.1 _ rfl,
          (fsmProtocol (serialOps cSpec)).2.2.1 _ (some 0) (by decide),
          ⟨_, rfl, (fsmProtocol (serialOps cSpec)).2.2.2.1 cFresh _ (some 0) rfl⟩⟩

/-- Claim C1 witness: on the concrete two-worker, two-env orchestrator, row 3
of the stacked batch is worker 1 env 1's observation `103`, row 0 is worker 0
env 0's observation `100`, and sending `[0, 1, 2, 3]` afterwards succeeds with
worker 1 stepped on actions `2, 3`. -/
theorem orderingLaw_witness :
    ∃ v' stacked rews dons infs,
      vecRecv (serialOps cSpec) cRecvReady = .ok (v', stacked, rews, dons, infs) ∧
      stacked[3]? = some 103 ∧ stacked[0]? = some 100 ∧
      ∃ v'', vecSend (serialOps cSpec) v'
          ((List.range (2 * 2)).map (fun i => (i : Int))) = .ok v'' ∧
        v''.backends[1]? = some (cW 1) := by
  have hrecv : ∀ (w : Nat) (b : SerialSt Int Int), cRecvReady.backends[w]? = some b →
      (serialOps cSpec).recv b = .ok (bfW w, (List.range 2).map
        (fun e => ⟨[(kW w e, oW w e)], rwsW w e, dnsW w e, ifsW w e⟩)) := by
    intro w b hb
    rcases w with _ | _ | w
    · simp only [cRecvReady, List.getElem?_cons_zero, Option.some.injEq] at hb
      subst hb
      rfl
    · simp only [cRecvReady, List.getElem?_cons_succ, List.getElem?_cons_zero,
        Option.some.injEq] at hb
      subst hb
      rfl
    · simp [cRecvReady] at hb
  obtain ⟨v', stacked, rews, dons, infs, h1, _, _, h4, _, h6⟩ :=
    orderingLaw (serialOps cSpec) cRecvReady 2 2 bfW kW oW rwsW dnsW ifsW
      (by decide) (by decide) rfl rfl rfl rfl hrecv
  have hsend : ∀ w : Nat, w < 2 →
      (serialOps cSpec).send (bfW w)
        ((List.range 2).map (fun e => [(kW w e, (fun i => (i : Int)) (w * 2 + e))])) =
      .ok (cW w) := by
    intro w hw
    interval_cases w
    · rfl
    · rfl
  obtain ⟨v'', hs1, _, _, hs4⟩ := h6 (fun i => (i : Int)) cW hsend
  exact ⟨v', stacked, rews, dons, infs, h1, h4 3 (by decide), h4 0 (by decide),
    v'', hs1, hs4 1 (by decide)⟩

/-- Claim C10: in state `SEND`, `send(actions)` raises — with an error
independent of every backend's `send` method, so nothing is dispatched — iff
the batch length does not divide into `num_workers` equal chunks each further
divisible into `envs_per_worker` sub-chunks; when it divides, worker `w`'s
env slot `e` receives exactly the length-`L/(W*E)` sub-chunk starting at
`w*(L/W) + e*(L/(W*E))`, zipped (as a dict) onto that slot's recorded
agent-key list. -/
theorem sendSharding (ops : BackendOps β ο α) (v : VecEnvSt β) (W E : Nat) (acts : List α)
    (hW : 0 < W) (hE : 0 < E) (hstate : v.state = Fsm.SEND)
    (hnw : v.num_workers = W) (hepw : v.envs_per_worker = E)
    (hblen : v.backends.length = W) (hklen : v.agent_keys.length = W) :
    (¬ (W ∣ acts.length ∧ E ∣ acts.length / W) →
      ∃ err, ∀ sf : β → List (List (Nat × α)) → Except Err β,
        vecSend { ops with send := sf } v acts = .error err) ∧
    ((W ∣ acts.length ∧ E ∣ acts.length / W) →
      ∀ (cF : Nat → β),
        (∀ (w : Nat) (b : β) (keys : List (List Nat)), v.backends[w]? = some b →
          v.agent_keys[w]? = some keys →
          ops.send b ((keys.zip ((List.range E).map (fun e =>
            (acts.drop (w * (acts.length / W) + e * (acts.length / W / E))).take
              (acts.length / W / E)))).map (fun p => pyDict (p.1.zip p.2))) = .ok (cF w)) →
        ∃ v', vecSend ops v acts = .ok v' ∧ v'.state = Fsm.RECV ∧
          v'.backends.length = W ∧
          ∀ w : Nat, w < W → v'.backends[w]? = some (cF w)) := by
  constructor
  · intro hnd
    by_cases hdW : W ∣ acts.length
    · have hdE : ¬ E ∣ acts.length / W := fun h => hnd ⟨hdW, h⟩
      obtain ⟨W', rfl⟩ := Nat.exists_eq_succ_of_ne_zero (Nat.pos_iff_ne_zero.1 hW)
      cases hbs : v.backends with
      | nil => rw [hbs] at hblen; simp at hblen
      | cons b bs =>
          cases hks : v.agent_keys with
          | nil => rw [hks] at hklen; simp at hklen
          | cons keys ks =>
              refine ⟨.valueError "array split does not result in an equal division",
                fun sf => ?_⟩
              unfold vecSend
              rw [if_pos hstate]
              simp only [hnw, hepw]
              have hsplit : npSplit acts (W' + 1) =
                  .ok (npSplit.splitSections acts (acts.length / (W' + 1)) (W' + 1)) :=
                npSplit_dvd acts (W' + 1) hW (Nat.dvd_iff_mod_eq_zero.mp hdW)
              rw [hsplit]
              have htakelen : (acts.take (acts.length / (W' + 1))).length =
                  acts.length / (W' + 1) := by
                simp [List.length_take, Nat.div_le_self]
              have hmod : ¬ (acts.take (acts.length / (W' + 1))).length % E = 0 := by
                rw [htakelen]
                intro h
                exact hdE (Nat.dvd_iff_mod_eq_zero.mpr h)
              have hinner : npSplit (acts.take (acts.length / (W' + 1))) E =
                  .error (.valueError "array split does not result in an equal division") := by
                unfold npSplit
                rw [if_neg (Nat.pos_iff_ne_zero.1 hE), if_neg hmod]
              rw [hbs, hks]
              simp only [npSplit.splitSections, sendLoop, hinner]
    · obtain ⟨W', rfl⟩ := Nat.exists_eq_succ_of_ne_zero (Nat.pos_iff_ne_zero.1 hW)
      refine ⟨.valueError "array split does not result in an equal division",
        fun sf => ?_⟩
      unfold vecSend
      rw [if_pos hstate]
      simp only [hnw, hepw]
      have hmod : ¬ acts.length % (W' + 1) = 0 := by
        intro h
        exact hdW (Nat.dvd_iff_mod_eq_zero.mpr h)
      have hsplit : npSplit acts (W' + 1) =
          .error (.valueError "array split does not result in an equal division") := by
        unfold npSplit
        rw [if_neg (by omega), if_neg hmod]
      rw [hsplit]
  · rintro ⟨hdW, hdE⟩ cF hsend
    have hsplit := npSplit_dvd acts W hW (Nat.dvd_iff_mod_eq_zero.mp hdW)
    have hsloop : sendLoop ops E v.backends v.agent_keys
        (npSplit.splitSections acts (acts.length / W) W) =
        .ok ((List.range v.backends.length).map cF) := by
      apply sendLoop_ok
      · rw [hblen, hklen]
      · rw [hblen, splitSections_length]
      · intro w b keys chunk hb hk hc
        have hw : w < W := by
          by_contra hge
          push_neg at hge
          rw [List.getElem?_eq_none (by rw [hblen]; exact hge)] at hb
          exact absurd hb (by simp)
        rw [splitSections_get, if_pos hw] at hc
        simp only [Option.some.injEq] at hc
        subst hc
        have hchunklen : ((acts.drop (w * (acts.length / W))).take (acts.length / W)).length =
            acts.length / W := by
          simp only [List.length_take, List.length_drop]
          have hwB : w * (acts.length / W) + acts.length / W ≤ acts.length := by
            have h1 : (w + 1) * (acts.length / W) ≤ W * (acts.length / W) :=
              Nat.mul_le_mul_right _ hw
            have h2 : W * (acts.length / W) = acts.length := Nat.mul_div_cancel' hdW
            have h3 : (w + 1) * (acts.length / W) = w * (acts.length / W) + acts.length / W := by
              ring
            omega
          omega
        have hcm : ((acts.drop (w * (acts.length / W))).take (acts.length / W)).length % E = 0 := by
          rw [hchunklen]
          exact Nat.dvd_iff_mod_eq_zero.mp hdE
        have hchsplit := npSplit_dvd ((acts.drop (w * (acts.length / W))).take (acts.length / W))
          E hE hcm
        rw [hchunklen] at hchsplit
        refine ⟨_, hchsplit, ?_⟩
        have hBs : acts.length / W = acts.length / W / E * E :=
          (Nat.div_mul_cancel hdE).symm
        have hsubs : npSplit.splitSections
            ((acts.drop (w * (acts.length / W))).take (acts.length / W))
            (acts.length / W / E) E =
            (List.range E).map (fun e =>
              (acts.drop (w * (acts.length / W) + e * (acts.length / W / E))).take
                (acts.length / W / E)) := by
          apply List.ext_getElem?
          intro i
          rw [splitSections_get]
          by_cases hi : i < E
          · rw [if_pos hi, List.getElem?_map, List.getElem?_range hi]
            refine congrArg some ?_
            rw [List.drop_take, List.drop_drop]
            rw [List.take_take]
            have hle : acts.length / W / E ≤ acts.length / W - i * (acts.length / W / E) := by
              have h1 : (i + 1) * (acts.length / W / E) ≤ E * (acts.length / W / E) :=
                Nat.mul_le_mul_right _ hi
              have h2 : (i + 1) * (acts.length / W / E) =
                  i * (acts.length / W / E) + acts.length / W / E := by ring
              have h3 : E * (acts.length / W / E) = acts.length / W / E * E := by ring
              omega
            rw [Nat.min_eq_left hle]
          · rw [if_neg hi, List.getElem?_map,
              List.getElem?_eq_none (by simpa using Nat.not_lt.1 hi)]
            rfl
        rw [hsubs]
        exact hsend w b keys hb hk
    refine ⟨{ v with state := Fsm.RECV, backends := (List.range W).map cF }, ?_, rfl, by simp, ?_⟩
    · unfold vecSend
      rw [if_pos hstate]
      simp only [hnw, hepw, hsplit, hsloop, hblen]
    · intro w hw
      simp [List.getElem?_map, List.getElem?_range, hw]

/-- Claim C10 witness: on the concrete two-worker, one-env orchestrator in
state `SEND`, a length-3 batch raises, while the batch `[100, 200]` dispatches
action 100 to worker 0 and 200 to worker 1, each zipped onto agent key 0. -/
theorem sendSharding_witness :
    (∃ err, vecSend (serialOps cSpec) cSendReady [(100 : Int), 200, 300] = .error err) ∧
    (∃ v', vecSend (serialOps cSpec) cSendReady [(100 : Int), 200] = .ok v' ∧
      v'.backends[0]? =
        some ⟨[103], some [⟨[(0, 3)], [(0, 1)], [(0, false)], [(0, 7)]⟩]⟩ ∧
      v'.backends[1]? =
        some ⟨[207], some [⟨[(0, 7)], [(0, 1)], [(0, false)], [(0, 7)]⟩]⟩) := by
  constructor
  · obtain ⟨err, herr⟩ :=
      (sendSharding (serialOps cSpec) cSendReady 2 1 [(100 : Int), 200, 300]
        (by decide) (by decide) rfl rfl rfl rfl rfl).1 (by decide)
    exact ⟨err, herr (serialOps cSpec).send⟩
  · have hdvd : (2 ∣ ([(100 : Int), 200]).length ∧
        1 ∣ ([(100 : Int), 200]).length / 2) := by decide
    have hsend : ∀ (w : Nat) (b : SerialSt Int Int) (keys : List (List Nat)),
        cSendReady.backends[w]? = some b → cSendReady.agent_keys[w]? = some keys →
        (serialOps cSpec).send b ((keys.zip ((List.range 1).map (fun e =>
          (([(100 : Int), 200]).drop (w * (([(100 : Int), 200]).length / 2) +
            e * (([(100 : Int), 200]).length / 2 / 1))).take
            (([(100 : Int), 200]).length / 2 / 1)))).map
          (fun p => pyDict (p.1.zip p.2))) = .ok
          (if w = 0 then
            (⟨[103], some [⟨[(0, 3)], [(0, 1)], [(0, false)], [(0, 7)]⟩]⟩ : SerialSt Int Int)
          else ⟨[207], some [⟨[(0, 7)], [(0, 1)], [(0, false)], [(0, 7)]⟩]⟩) := by
      intro w b keys hb hk
      rcases w with _ | _ | w
      · simp only [cSendReady, List.getElem?_cons_zero, Option.some.injEq] at hb hk
        subst hb
        subst hk
        rfl
      · simp only [cSendReady, List.getElem?_cons_succ, List.getElem?_cons_zero,
          Option.some.injEq] at hb hk
        subst hb
        subst hk
        rfl
      · simp [cSendReady] at hb
    obtain ⟨v', h1, _, _, h4⟩ :=
      (sendSharding (serialOps cSpec) cSendReady 2 1 [(100 : Int), 200]
        (by decide) (by decide) rfl rfl rfl rfl rfl).2 hdvd _ hsend
    refine ⟨v', h1, ?_, ?_⟩
    · simpa using h4 0 (by decide)
    · simpa using h4 1 (by decide)

/-- Claim C4 (code bug): the Process+Queues and Process+SharedMemory backends
are *not* observationally equivalent, because the shared-memory fast path
cannot deliver a single observation.  At the failing input — one env in state
`3`, one step with action map `{0: 1}` — the queues round trip returns the
observation `{0: 3}`, while the shared-memory worker's `step` handler raises
`AttributeError`: the worker process was started (inside
`Multiprocessing.__init__`) before `obs_np` was created, so
`self.obs_np[i] = obs` fails on its first iteration and no
`(valid_row_count, dones)` header is ever published (`recv()` would block
forever).  The same holds for every environment whose pool is nonempty, shown
here for a second, two-env input. -/
theorem sharedMemoryStepCrashes :
    mpStepRoundtrip cSpec [3] [[(0, 1)]] =
      .ok ([4], [⟨[(0, 3)], [(0, 1)], [(0, false)], [(0, 7)]⟩]) ∧
    smWorkerHandle cSpec ⟨[3]⟩ (Request.step [[(0, 1)]]) =
      .error (.attributeError
        "SharedMemoryMultiprocessing object has no attribute obs_np") ∧
    mpStepRoundtrip cSpec [3, 5] [[(0, 1)], [(0, 2)]] =
      .ok ([4, 7], [⟨[(0, 3)], [(0, 1)], [(0, false)], [(0, 7)]⟩,
                    ⟨[(0, 5)], [(0, 1)], [(0, false)], [(0, 7)]⟩]) ∧
    smWorkerHandle cSpec ⟨[3, 5]⟩ (Request.step [[(0, 1)], [(0, 2)]]) =
      .error (.attributeError
        "SharedMemoryMultiprocessing object has no attribute obs_np") := by
  exact ⟨rfl, rfl, rfl, rfl⟩
